import Mathlib

/-!
Shallow embedding of the fraud-detection prediction pipeline of this
repository (app/preprocess.py, app/inference.py, app/api.py), together
with theorems settling the specification claims about it.

Python dictionaries holding the transaction record are modelled as
association lists with string keys; Python values are abstracted by
their behaviour under the built-in float() coercion (either they coerce
to a rational number, or float() raises ValueError/TypeError).
Rationals stand in for Python floats.
-/

set_option maxRecDepth 2000

namespace FraudDetection

/-- A Python value as seen by this pipeline: either float() succeeds on
it and yields a number, or float() raises (ValueError / TypeError). -/
inductive PyValue where
  | fnum (q : ℚ)
  | nonNum (s : String)
deriving DecidableEq

/-- The float() builtin: some number on success, none when it raises. -/
def pyFloat : PyValue → Option ℚ
  | .fnum q => some q
  | .nonNum _ => none

/-- A transaction record: a Python dict from field names to values. -/
abbrev Record := List (String × PyValue)

/-- Dict lookup, data.get(k) / data[k] membership-wise. -/
def lookupKey : Record → String → Option PyValue
  | [], _ => none
  | (k, v) :: rest, f => if k = f then some v else lookupKey rest f

/-- Python membership test: k in data. -/
def hasKey (d : Record) (k : String) : Bool :=
  (lookupKey d k).isSome

/-- float(data[f]) succeeds on field f of record d. -/
def coercesToFloat (d : Record) (f : String) : Bool :=
  ((lookupKey d f).bind pyFloat).isSome

/-- The numeric value float(data[f]) of field f (0 when absent or not
coercible; only ever used where success is guaranteed). -/
def floatField (d : Record) (f : String) : ℚ :=
  ((lookupKey d f).bind pyFloat).getD 0

/-- data.pop(k, default): the stored value (if any) and the dict with
the key removed. -/
def popKey (d : Record) (k : String) : Option PyValue × Record :=
  (lookupKey d k, d.filter (fun kv => kv.1 ≠ k))

/-- The required features of app/preprocess.py
DataPreprocessor.validate_transaction_data. -/
def required_features : List String :=
  ["V1", "V2", "V3", "V4", "V5", "V6", "V7", "V8", "V9", "V10",
   "V11", "V12", "V13", "V14", "V15", "V16", "V17", "V18", "V19", "V20",
   "V21", "V22", "V23", "V24", "V25", "V26", "V27", "V28", "Amount"]

/-- The model feature order of app/preprocess.py
DataPreprocessor.prepare_features. -/
def feature_names : List String :=
  ["Time", "V1", "V2", "V3", "V4", "V5", "V6", "V7", "V8", "V9", "V10",
   "V11", "V12", "V13", "V14", "V15", "V16", "V17", "V18", "V19", "V20",
   "V21", "V22", "V23", "V24", "V25", "V26", "V27", "V28", "Amount"]

/-- Structured form of the validation messages of
validate_transaction_data (the Python code formats these as Russian
strings; the payload carries exactly the names interpolated there). -/
inductive VMsg where
  | missingFeatures (fs : List String)
  | notANumber (f : String)
  | negativeAmount
  | ok
deriving DecidableEq

/-- Result of validate_transaction_data: the returned (bool, message)
pair, plus whether the large-amount warning was logged. -/
structure ValidateOut where
  valid : Bool
  msg : VMsg
  warnedLargeAmount : Bool
deriving DecidableEq

/-- app/preprocess.py DataPreprocessor.validate_transaction_data:
checks presence of all required features, float()-coercibility of each
(first offender reported), non-negativity of Amount, and logs a warning
when Amount exceeds 100000. -/
def validate_transaction_data (data : Record) : ValidateOut :=
  let missing := required_features.filter (fun f => !hasKey data f)
  if missing ≠ [] then ⟨false, .missingFeatures missing, false⟩
  else
    match required_features.find? (fun f => !coercesToFloat data f) with
    | some f => ⟨false, .notANumber f, false⟩
    | none =>
      let amount := floatField data "Amount"
      if amount < 0 then ⟨false, .negativeAmount, false⟩
      else ⟨true, .ok, decide (100000 < amount)⟩

/-- Modelled from the spec: the fitted StandardScaler artifact is an
external, opaque object; per section 4.3 its transform applies
(x - mean) / scale per dimension with parameters frozen at training
time. -/
structure Scaler where
  mean : ℕ → ℚ
  scale : ℕ → ℚ

/-- scaler.transform on one feature row: per-dimension affine map. -/
def Scaler.transform (s : Scaler) (xs : List ℚ) : List ℚ :=
  xs.mapIdx (fun i x => (x - s.mean i) / s.scale i)

/-- The exceptions that can escape the prediction path: the ValueError
raised by prepare_features on invalid data, the ValueError/KeyError from
float(data[f]) on a bad field (only the optional Time field can reach
this), and the ValueError for a missing scaler. -/
inductive PredError where
  | validation (m : VMsg)
  | badField (f : String)
  | scalerNotLoaded
deriving DecidableEq

/-- The loop of prepare_features building float(data[f]) for each name
in order; stops at the first field float() rejects. -/
def floatsInOrder (d : Record) : List String → Except PredError (List ℚ)
  | [] => .ok []
  | f :: fs =>
    match (lookupKey d f).bind pyFloat with
    | none => .error (.badField f)
    | some q =>
      match floatsInOrder d fs with
      | .error e => .error e
      | .ok rest => .ok (q :: rest)

/-- The Time-defaulting step of prepare_features: if 'Time' not in
data, set data['Time'] = 0 (an in-place dict mutation in the source,
modelled as returning the updated dict). -/
def timeDefaulted (data : Record) : Record :=
  if hasKey data "Time" then data else data ++ [("Time", PyValue.fnum 0)]

/-- app/preprocess.py DataPreprocessor.prepare_features: validate, then
default Time to 0 when absent (mutating the caller's dict — returned
here as the second component), then assemble float(data[f]) in
feature_names order and apply the scaler. -/
def prepare_features (scaler : Option Scaler) (data : Record) :
    Except PredError (List ℚ) × Record :=
  let v := validate_transaction_data data
  if v.valid = false then (.error (.validation v.msg), data)
  else
    let data2 := timeDefaulted data
    match floatsInOrder data2 feature_names with
    | .error e => (.error e, data2)
    | .ok feats =>
      match scaler with
      | none => (.error .scalerNotLoaded, data2)
      | some s => (.ok (s.transform feats), data2)

/-- app/inference.py FraudDetectionModel.predict_fraud_probability: the
trained classifier is an opaque artifact, modelled as a parameter
mapping the scaled feature row to predict_proba(features)[0, 1]. -/
def predict_fraud_probability (model : List ℚ → ℚ) (scaler : Option Scaler)
    (data : Record) : Except PredError ℚ × Record :=
  match prepare_features scaler data with
  | (.ok feats, d2) => (.ok (model feats), d2)
  | (.error e, d2) => (.error e, d2)

/-- app/inference.py FraudDetectionModel.predict_fraud_class:
probability >= threshold. -/
def predict_fraud_class (model : List ℚ → ℚ) (scaler : Option Scaler)
    (data : Record) (threshold : ℚ) : Except PredError Bool × Record :=
  match predict_fraud_probability model scaler data with
  | (.ok p, d2) => (.ok (decide (p ≥ threshold)), d2)
  | (.error e, d2) => (.error e, d2)

/-- The risk interpretation of app/inference.py predict_with_details
(the five Russian labels: very low, low, medium, high, very high). -/
def risk_level (p : ℚ) : String :=
  if p < 1/10 then "Очень низкий"
  else if p < 3/10 then "Низкий"
  else if p < 7/10 then "Средний"
  else if p < 9/10 then "Высокий"
  else "Очень высокий"

/-- Rank of a risk label in the five-tier order (unknown labels rank
above all five; risk_level never produces one). -/
def tierRank (s : String) : ℕ :=
  if s = "Очень низкий" then 0
  else if s = "Низкий" then 1
  else if s = "Средний" then 2
  else if s = "Высокий" then 3
  else if s = "Очень высокий" then 4
  else 5

/-- Python round(x, 4): round to 4 decimal places. Python rounds exact
ties to even via binary floats; on inputs whose 5th decimal digit is
not a tie the two agree, and every use below is tie-free. -/
def pyRound4 (q : ℚ) : ℚ :=
  (round (q * 10000) : ℤ) / 10000

/-- The dictionary predict_with_details returns: fields absent from a
given return path are none. -/
structure PredictionResult where
  error : Option PredError
  fraud_score : Option ℚ
  is_fraud : Option Bool
  confidence : Option ℚ
  risk_level : Option String
  threshold : Option ℚ
deriving DecidableEq

/-- The error dictionary of predict_with_details: an error message with
fraud_score, is_fraud and confidence all None (risk_level and threshold
keys absent). -/
def errorResult (e : PredError) : PredictionResult :=
  { error := some e, fraud_score := none, is_fraud := none,
    confidence := none, risk_level := none, threshold := none }

/-- The success dictionary of predict_with_details for probability p
and threshold t: rounded score, the decision p >= t, rounded confidence
max(p, 1-p), the risk label, and the threshold echoed back. -/
def successPayload (p t : ℚ) : PredictionResult :=
  { error := none,
    fraud_score := some (pyRound4 p),
    is_fraud := some (decide (p ≥ t)),
    confidence := some (pyRound4 (max p (1 - p))),
    risk_level := some (risk_level p),
    threshold := some t }

/-- app/inference.py FraudDetectionModel.predict_with_details: validate
(returning the error payload on failure), score, then report the
success dictionary; any exception from the scoring path is caught and
becomes the error payload. The second component is the caller's dict
after the call (prepare_features may have inserted Time). -/
def predict_with_details (model : List ℚ → ℚ) (scaler : Option Scaler)
    (data : Record) (threshold : ℚ) : PredictionResult × Record :=
  let v := validate_transaction_data data
  if v.valid = false then (errorResult (.validation v.msg), data)
  else
    match predict_fraud_probability model scaler data with
    | (.error e, d2) => (errorResult e, d2)
    | (.ok p, d2) => (successPayload p threshold, d2)

/-- One entry of the batch_predict result list: the per-item dictionary
tagged with its transaction_id (the enumerate index). -/
structure BatchItem where
  transaction_id : ℕ
  result : PredictionResult
deriving DecidableEq

/-- The enumerate loop of batch_predict, carrying the running index. -/
def batch_predict_go (model : List ℚ → ℚ) (scaler : Option Scaler)
    (threshold : ℚ) : ℕ → List Record → List BatchItem
  | _, [] => []
  | i, tx :: rest =>
    ⟨i, (predict_with_details model scaler tx threshold).1⟩ ::
      batch_predict_go model scaler threshold (i + 1) rest

/-- app/inference.py FraudDetectionModel.batch_predict: one result per
transaction, in order, each tagged with its index; predict_with_details
already catches per-item failures, so every item yields a result. -/
def batch_predict (model : List ℚ → ℚ) (scaler : Option Scaler)
    (transactions : List Record) (threshold : ℚ) : List BatchItem :=
  batch_predict_go model scaler threshold 0 transactions

/-- app/inference.py validate_and_predict: validate with a fresh
preprocessor, then predict; first component is the "valid" flag. -/
def validate_and_predict (model : List ℚ → ℚ) (scaler : Option Scaler)
    (data : Record) (threshold : ℚ) : (Bool × PredictionResult) × Record :=
  let v := validate_transaction_data data
  if v.valid = false then ((false, errorResult (.validation v.msg)), data)
  else
    match predict_with_details model scaler data threshold with
    | (r, d2) => ((true, r), d2)

/-- The error responses of the app/api.py endpoints (each is a 4xx/5xx
JSON body in the source). -/
inductive ApiError where
  | modelNotLoaded
  | emptyBody
  | thresholdOutOfRange
  | thresholdNotANumber
  | validationFailed (e : Option PredError)
  | batchTooLarge
deriving DecidableEq

/-- The 200 response body of the /predict endpoint. -/
structure ApiOk where
  fraud_score : Option ℚ
  is_fraud : Option Bool
  confidence : Option ℚ
  risk_level : Option String
  threshold : ℚ
deriving DecidableEq

/-- The part of the /predict endpoint after the threshold has been
popped and validated: validate_and_predict, then either the 400
validation error or the 200 body. -/
def api_predict_core (model : List ℚ → ℚ) (scaler : Option Scaler)
    (data : Record) (threshold : ℚ) : Except ApiError ApiOk :=
  match validate_and_predict model scaler data threshold with
  | ((valid, r), _) =>
    if valid = false then .error (.validationFailed r.error)
    else .ok { fraud_score := r.fraud_score, is_fraud := r.is_fraud,
               confidence := r.confidence, risk_level := r.risk_level,
               threshold := threshold }

/-- app/api.py predict_fraud (the POST /predict endpoint): model-loaded
check, empty-body check, pop the threshold (default 0.5), reject a
non-numeric or out-of-range threshold before anything else, then
predict. -/
def predict_fraud (model : Option (List ℚ → ℚ)) (scaler : Option Scaler)
    (data : Record) : Except ApiError ApiOk :=
  match model with
  | none => .error .modelNotLoaded
  | some m =>
    if data = [] then .error .emptyBody
    else
      match popKey data "threshold" with
      | (tv, data2) =>
        match tv with
        | none => api_predict_core m scaler data2 (1/2)
        | some v =>
          match pyFloat v with
          | none => .error .thresholdNotANumber
          | some t =>
            if 0 ≤ t ∧ t ≤ 1 then api_predict_core m scaler data2 t
            else .error .thresholdOutOfRange

/-- app/api.py predict_batch (the POST /predict/batch endpoint):
model-loaded check, read the shared threshold (default 0.5, validated
first), reject more than 100 transactions outright, else run
batch_predict. -/
def predict_batch (model : Option (List ℚ → ℚ)) (scaler : Option Scaler)
    (transactions : List Record) (thresholdField : Option PyValue) :
    Except ApiError (List BatchItem) :=
  match model with
  | none => .error .modelNotLoaded
  | some m =>
    match pyFloat (thresholdField.getD (PyValue.fnum (1/2))) with
    | none => .error .thresholdNotANumber
    | some t =>
      if 0 ≤ t ∧ t ≤ 1 then
        if 100 < transactions.length then .error .batchTooLarge
        else .ok (batch_predict m scaler transactions t)
      else .error .thresholdOutOfRange

/-- The sample transaction of app/preprocess.py
create_sample_transaction (V1..V28 and Amount, no Time). -/
def create_sample_transaction : Record :=
  [("V1", .fnum (-1.3598071336738)), ("V2", .fnum (-0.0727811733098497)),
   ("V3", .fnum 2.53634673796914), ("V4", .fnum 1.37815522427443),
   ("V5", .fnum (-0.338320769942518)), ("V6", .fnum 0.462387777762292),
   ("V7", .fnum 0.239598554061257), ("V8", .fnum 0.0986979012610507),
   ("V9", .fnum 0.363786969611213), ("V10", .fnum 0.0907941719789316),
   ("V11", .fnum (-0.551599533260813)), ("V12", .fnum (-0.617800855762348)),
   ("V13", .fnum (-0.991389847235408)), ("V14", .fnum (-0.311169353699879)),
   ("V15", .fnum 1.46817697209427), ("V16", .fnum (-0.470400525259478)),
   ("V17", .fnum 0.207971241929242), ("V18", .fnum 0.0257905801985591),
   ("V19", .fnum 0.403992960255733), ("V20", .fnum 0.251412098239705),
   ("V21", .fnum (-0.018306777944153)), ("V22", .fnum 0.277837575558899),
   ("V23", .fnum (-0.110473910188767)), ("V24", .fnum 0.0669280749146731),
   ("V25", .fnum 0.128539358273528), ("V26", .fnum (-0.189114843888824)),
   ("V27", .fnum 0.133558376740387), ("V28", .fnum (-0.0210530534538215)),
   ("Amount", .fnum 149.62)]

/-- An identity scaler (mean 0, scale 1 in every dimension), used to
instantiate theorems at concrete inputs. -/
def unitScaler : Scaler :=
  { mean := fun _ => 0, scale := fun _ => 1 }

/-- A minimal valid record for instantiating theorems: all anonymized
features 0, Amount 100, no Time key. -/
def simpleRecord : Record :=
  [("V1", .fnum 0), ("V2", .fnum 0), ("V3", .fnum 0), ("V4", .fnum 0),
   ("V5", .fnum 0), ("V6", .fnum 0), ("V7", .fnum 0), ("V8", .fnum 0),
   ("V9", .fnum 0), ("V10", .fnum 0), ("V11", .fnum 0), ("V12", .fnum 0),
   ("V13", .fnum 0), ("V14", .fnum 0), ("V15", .fnum 0), ("V16", .fnum 0),
   ("V17", .fnum 0), ("V18", .fnum 0), ("V19", .fnum 0), ("V20", .fnum 0),
   ("V21", .fnum 0), ("V22", .fnum 0), ("V23", .fnum 0), ("V24", .fnum 0),
   ("V25", .fnum 0), ("V26", .fnum 0), ("V27", .fnum 0), ("V28", .fnum 0),
   ("Amount", .fnum 100)]

/-- simpleRecord with Amount replaced by the soft ceiling 100000. -/
def boundaryRecord : Record :=
  simpleRecord.dropLast ++ [("Amount", PyValue.fnum 100000)]

/-- simpleRecord with a negative Amount. -/
def negAmountRecord : Record :=
  simpleRecord.dropLast ++ [("Amount", PyValue.fnum (-1))]

/-- simpleRecord with a Time value float() rejects. -/
def badTimeRecord : Record :=
  ("Time", PyValue.nonNum "oops") :: simpleRecord

/-- The feature sequence the spec claims prepare_features assembles:
the temporal field first (defaulting to 0 when the key is absent), then
the 28 anonymized features in ascending index order, then Amount last. -/
def claimedFeatureOrder (data : Record) : List ℚ :=
  (if hasKey data "Time" then floatField data "Time" else 0) ::
  [floatField data "V1", floatField data "V2", floatField data "V3",
   floatField data "V4", floatField data "V5", floatField data "V6",
   floatField data "V7", floatField data "V8", floatField data "V9",
   floatField data "V10", floatField data "V11", floatField data "V12",
   floatField data "V13", floatField data "V14", floatField data "V15",
   floatField data "V16", floatField data "V17", floatField data "V18",
   floatField data "V19", floatField data "V20", floatField data "V21",
   floatField data "V22", floatField data "V23", floatField data "V24",
   floatField data "V25", floatField data "V26", floatField data "V27",
   floatField data "V28", floatField data "Amount"]

/-! ### Helper lemmas about dict lookups -/

theorem lookupKey_append_some {d : Record} {f : String} {v : PyValue}
    (e : Record) (h : lookupKey d f = some v) :
    lookupKey (d ++ e) f = some v := by
  induction d with
  | nil => simp [lookupKey] at h
  | cons kv rest ih =>
    obtain ⟨k, w⟩ := kv
    by_cases hk : k = f
    · simp only [lookupKey, if_pos hk] at h
      simp only [List.cons_append, lookupKey, if_pos hk]
      exact h
    · simp only [lookupKey, if_neg hk] at h
      simp only [List.cons_append, lookupKey, if_neg hk]
      exact ih h

theorem lookupKey_append_none {d : Record} {f : String}
    (e : Record) (h : lookupKey d f = none) :
    lookupKey (d ++ e) f = lookupKey e f := by
  induction d with
  | nil => simp
  | cons kv rest ih =>
    obtain ⟨k, w⟩ := kv
    by_cases hk : k = f
    · simp only [lookupKey, if_pos hk] at h
      cases h
    · simp only [lookupKey, if_neg hk] at h
      simp only [List.cons_append, lookupKey, if_neg hk]
      exact ih h

theorem lookupKey_eq_none_iff {d : Record} {f : String} :
    lookupKey d f = none ↔ ∀ kv ∈ d, kv.1 ≠ f := by
  induction d with
  | nil => simp [lookupKey]
  | cons kv rest ih =>
    obtain ⟨k, w⟩ := kv
    by_cases hk : k = f
    · simp [lookupKey, hk]
    · simp [lookupKey, hk, ih]

theorem hasKey_of_coerces {d : Record} {f : String}
    (h : coercesToFloat d f = true) : hasKey d f = true := by
  unfold coercesToFloat at h
  unfold hasKey
  cases hl : lookupKey d f with
  | none => rw [hl] at h; simp at h
  | some v => simp

/-! ### Helper lemmas about validation -/

theorem validate_of_missing {data : Record}
    (h : required_features.filter (fun f => !hasKey data f) ≠ []) :
    validate_transaction_data data =
      ⟨false, .missingFeatures
        (required_features.filter (fun f => !hasKey data f)), false⟩ := by
  unfold validate_transaction_data
  rw [if_pos h]

theorem validate_of_badfield {data : Record} {f₀ : String}
    (hpres : required_features.filter (fun f => !hasKey data f) = [])
    (hfind : required_features.find? (fun f => !coercesToFloat data f) = some f₀) :
    validate_transaction_data data = ⟨false, .notANumber f₀, false⟩ := by
  unfold validate_transaction_data
  rw [if_neg (by simp [hpres]), hfind]

theorem validate_of_allcoerce {data : Record}
    (hall : ∀ f ∈ required_features, coercesToFloat data f = true) :
    validate_transaction_data data =
      if floatField data "Amount" < 0 then ⟨false, .negativeAmount, false⟩
      else ⟨true, .ok, decide (100000 < floatField data "Amount")⟩ := by
  have hpres : required_features.filter (fun f => !hasKey data f) = [] := by
    refine List.filter_eq_nil_iff.mpr ?_
    intro f hf
    simp [hasKey_of_coerces (hall f hf)]
  have hfind : required_features.find? (fun f => !coercesToFloat data f) = none :=
    List.find?_eq_none.mpr (fun f hf => by simp [hall f hf])
  unfold validate_transaction_data
  rw [if_neg (by simp [hpres]), hfind]

theorem coerces_of_valid {data : Record}
    (h : (validate_transaction_data data).valid = true) :
    ∀ f ∈ required_features, coercesToFloat data f = true := by
  intro f hf
  unfold validate_transaction_data at h
  by_cases hm : required_features.filter (fun g => !hasKey data g) ≠ []
  · rw [if_pos hm] at h
    cases h
  · rw [if_neg hm] at h
    cases hfind : required_features.find? (fun g => !coercesToFloat data g) with
    | some g => rw [hfind] at h; cases h
    | none =>
      have := List.find?_eq_none.mp hfind f hf
      simpa using this

theorem amount_nonneg_of_valid {data : Record}
    (h : (validate_transaction_data data).valid = true) :
    0 ≤ floatField data "Amount" := by
  have hall := coerces_of_valid h
  rw [validate_of_allcoerce hall] at h
  by_cases ha : floatField data "Amount" < 0
  · rw [if_pos ha] at h; cases h
  · exact le_of_not_lt ha

theorem valid_of_coerce_nonneg {data : Record}
    (hall : ∀ f ∈ required_features, coercesToFloat data f = true)
    (ha : 0 ≤ floatField data "Amount") :
    (validate_transaction_data data).valid = true := by
  rw [validate_of_allcoerce hall, if_neg (not_lt.mpr ha)]

/-! ### Helper lemmas about feature assembly -/

theorem floatsInOrder_ok {d : Record} : ∀ {fs : List String},
    (∀ f ∈ fs, coercesToFloat d f = true) →
    floatsInOrder d fs = .ok (fs.map (floatField d))
  | [], _ => rfl
  | f :: fs, h => by
    have hf : coercesToFloat d f = true := h f (List.mem_cons_self f fs)
    unfold coercesToFloat at hf
    obtain ⟨q, hq⟩ := Option.isSome_iff_exists.mp hf
    have ih := @floatsInOrder_ok d fs
      (fun g hg => h g (List.mem_cons_of_mem f hg))
    simp [floatsInOrder, hq, ih, floatField]

theorem lookupKey_timeDefaulted {data : Record} {f : String}
    (h : hasKey data f = true) :
    lookupKey (timeDefaulted data) f = lookupKey data f := by
  unfold timeDefaulted
  split
  · rfl
  · obtain ⟨v, hv⟩ := Option.isSome_iff_exists.mp h
    rw [hv, lookupKey_append_some _ hv]

theorem floatField_timeDefaulted {data : Record} {f : String}
    (h : hasKey data f = true) :
    floatField (timeDefaulted data) f = floatField data f := by
  unfold floatField
  rw [lookupKey_timeDefaulted h]

theorem coerces_timeDefaulted {data : Record} {f : String}
    (h : hasKey data f = true) :
    coercesToFloat (timeDefaulted data) f = coercesToFloat data f := by
  unfold coercesToFloat
  rw [lookupKey_timeDefaulted h]

theorem lookupKey_timeDefaulted_absent {data : Record}
    (h : hasKey data "Time" = false) :
    lookupKey (timeDefaulted data) "Time" = some (PyValue.fnum 0) := by
  unfold timeDefaulted
  rw [if_neg (by simp [h])]
  have hn : lookupKey data "Time" = none := by
    unfold hasKey at h
    exact Option.not_isSome_iff_eq_none.mp (by simp [h])
  rw [lookupKey_append_none _ hn]
  rfl

theorem coerces_timeDefaulted_all {data : Record}
    (hv : (validate_transaction_data data).valid = true)
    (ht : hasKey data "Time" = false ∨ coercesToFloat data "Time" = true) :
    ∀ f ∈ feature_names, coercesToFloat (timeDefaulted data) f = true := by
  have hall := coerces_of_valid hv
  intro f hf
  have hsplit : f = "Time" ∨ f ∈ required_features := by
    have he : feature_names = "Time" :: required_features := rfl
    rw [he] at hf
    simpa using hf
  rcases hsplit with h1 | h2
  · subst h1
    rcases ht with habs | hco
    · unfold coercesToFloat
      rw [lookupKey_timeDefaulted_absent habs]
      rfl
    · rw [coerces_timeDefaulted (hasKey_of_coerces hco)]
      exact hco
  · rw [coerces_timeDefaulted (hasKey_of_coerces (hall f h2))]
    exact hall f h2

theorem prepare_features_ok (s : Scaler) (data : Record)
    (hv : (validate_transaction_data data).valid = true)
    (ht : hasKey data "Time" = false ∨ coercesToFloat data "Time" = true) :
    prepare_features (some s) data =
      (.ok (s.transform (feature_names.map (floatField (timeDefaulted data)))),
       timeDefaulted data) := by
  unfold prepare_features
  simp only [hv, Bool.true_eq_false, if_false]
  rw [floatsInOrder_ok (coerces_timeDefaulted_all hv ht)]

theorem feature_map_eq_claimed (data : Record)
    (hv : (validate_transaction_data data).valid = true) :
    feature_names.map (floatField (timeDefaulted data)) =
      claimedFeatureOrder data := by
  have hall := coerces_of_valid hv
  have hff : ∀ f ∈ required_features,
      floatField (timeDefaulted data) f = floatField data f :=
    fun f hf => floatField_timeDefaulted (hasKey_of_coerces (hall f hf))
  have h1 : feature_names.map (floatField (timeDefaulted data)) =
      floatField (timeDefaulted data) "Time" ::
        required_features.map (floatField (timeDefaulted data)) := rfl
  have hhead : floatField (timeDefaulted data) "Time" =
      if hasKey data "Time" then floatField data "Time" else 0 := by
    by_cases hT : hasKey data "Time" = true
    · rw [if_pos hT]
      exact floatField_timeDefaulted hT
    · have hT' : hasKey data "Time" = false := by
        cases h : hasKey data "Time"
        · rfl
        · exact absurd h hT
      rw [if_neg (by simp [hT'])]
      unfold floatField
      rw [lookupKey_timeDefaulted_absent hT']
      rfl
  rw [h1, List.map_congr_left hff, hhead]
  rfl

/-! ### Helper lemmas about the prediction path -/

theorem predict_with_details_invalid {m : List ℚ → ℚ} {s : Option Scaler}
    {data : Record} {t : ℚ}
    (h : (validate_transaction_data data).valid = false) :
    predict_with_details m s data t =
      (errorResult (.validation (validate_transaction_data data).msg), data) := by
  unfold predict_with_details
  simp only [h, if_true]

theorem predict_with_details_valid_eq {m : List ℚ → ℚ} {s : Option Scaler}
    {data : Record} {t : ℚ}
    (h : (validate_transaction_data data).valid = true) :
    predict_with_details m s data t =
      (match predict_fraud_probability m s data with
       | (.error e, d2) => (errorResult e, d2)
       | (.ok p, d2) => (successPayload p t, d2)) := by
  unfold predict_with_details
  simp only [h, Bool.true_eq_false, if_false]

theorem predict_with_details_ok (m : List ℚ → ℚ) (s : Scaler)
    (data : Record) (t : ℚ)
    (hv : (validate_transaction_data data).valid = true)
    (ht : hasKey data "Time" = false ∨ coercesToFloat data "Time" = true) :
    predict_with_details m (some s) data t =
      (successPayload
        (m (s.transform (feature_names.map (floatField (timeDefaulted data))))) t,
       timeDefaulted data) := by
  rw [predict_with_details_valid_eq hv]
  unfold predict_fraud_probability
  rw [prepare_features_ok s data hv ht]

theorem predict_with_details_cases (m : List ℚ → ℚ) (s : Option Scaler)
    (data : Record) (t : ℚ) :
    (∃ e, (predict_with_details m s data t).1 = errorResult e) ∨
    (∃ p, (predict_with_details m s data t).1 = successPayload p t) := by
  by_cases hv : (validate_transaction_data data).valid = true
  · rw [predict_with_details_valid_eq hv]
    rcases hpp : predict_fraud_probability m s data with ⟨res, d2⟩
    cases res with
    | error e => left; exact ⟨e, rfl⟩
    | ok p => right; exact ⟨p, rfl⟩
  · have hv' : (validate_transaction_data data).valid = false := by
      cases h : (validate_transaction_data data).valid
      · rfl
      · exact absurd h hv
    rw [predict_with_details_invalid hv']
    left
    exact ⟨_, rfl⟩

theorem predict_error_none {m : List ℚ → ℚ} {s : Option Scaler}
    {data : Record} {t : ℚ}
    (h : (predict_with_details m s data t).1.error = none) :
    ∃ p, (predict_with_details m s data t).1 = successPayload p t := by
  rcases predict_with_details_cases m s data t with ⟨e, he⟩ | hp
  · rw [he] at h
    simp [errorResult] at h
  · exact hp

theorem risk_level_threshold_indep (m : List ℚ → ℚ) (s : Option Scaler)
    (data : Record) (t₁ t₂ : ℚ) :
    (predict_with_details m s data t₁).1.risk_level =
    (predict_with_details m s data t₂).1.risk_level := by
  by_cases hv : (validate_transaction_data data).valid = true
  · rw [predict_with_details_valid_eq hv, predict_with_details_valid_eq hv]
    rcases hpp : predict_fraud_probability m s data with ⟨res, d2⟩
    cases res with
    | error e => rfl
    | ok p => rfl
  · have hv' : (validate_transaction_data data).valid = false := by
      cases h : (validate_transaction_data data).valid
      · rfl
      · exact absurd h hv
    rw [predict_with_details_invalid hv', predict_with_details_invalid hv']

/-! ### Helper lemmas about the dict mutation -/

theorem prepare_features_snd (s : Option Scaler) (data : Record) :
    (prepare_features s data).2 =
      if (validate_transaction_data data).valid = false then data
      else timeDefaulted data := by
  by_cases hv : (validate_transaction_data data).valid = false
  · simp [prepare_features, hv]
  · cases hfl : floatsInOrder (timeDefaulted data) feature_names with
    | error e => cases s <;> simp [prepare_features, hv, hfl]
    | ok feats => cases s <;> simp [prepare_features, hv, hfl]

theorem predict_fraud_probability_snd (m : List ℚ → ℚ) (s : Option Scaler)
    (data : Record) :
    (predict_fraud_probability m s data).2 = (prepare_features s data).2 := by
  unfold predict_fraud_probability
  rcases h : prepare_features s data with ⟨res, d2⟩
  cases res with
  | error e => rfl
  | ok feats => rfl

theorem predict_with_details_snd (m : List ℚ → ℚ) (s : Option Scaler)
    (data : Record) (t : ℚ) :
    (predict_with_details m s data t).2 =
      if (validate_transaction_data data).valid = false then data
      else (prepare_features s data).2 := by
  by_cases hv : (validate_transaction_data data).valid = true
  · rw [predict_with_details_valid_eq hv]
    rw [if_neg (by simp [hv])]
    rw [← predict_fraud_probability_snd m s data]
    rcases hpp : predict_fraud_probability m s data with ⟨res, d2⟩
    cases res with
    | error e => rfl
    | ok p => rfl
  · have hv' : (validate_transaction_data data).valid = false := by
      cases h : (validate_transaction_data data).valid
      · rfl
      · exact absurd h hv
    rw [predict_with_details_invalid hv', if_pos hv']

/-! ### Helper lemmas about rounding and confidence bounds -/

theorem pyRound4_bounds {q : ℚ} (h0 : 1/2 ≤ q) (h1 : q ≤ 1) :
    1/2 ≤ pyRound4 q ∧ pyRound4 q ≤ 1 := by
  unfold pyRound4
  constructor
  · rw [le_div_iff₀ (by norm_num : (0:ℚ) < 10000)]
    have h : (5000 : ℤ) ≤ round (q * 10000) := by
      rw [round_eq, Int.le_floor]
      push_cast
      linarith
    calc (1:ℚ)/2 * 10000 = ((5000 : ℤ) : ℚ) := by norm_num
    _ ≤ ((round (q * 10000) : ℤ) : ℚ) := by exact_mod_cast h
  · rw [div_le_one (by norm_num : (0:ℚ) < 10000)]
    have h : round (q * 10000) ≤ (10000 : ℤ) := by
      rw [round_eq]
      have hlt : q * 10000 + 1/2 < ((10001 : ℤ) : ℚ) := by
        push_cast
        linarith
      have := Int.floor_lt.mpr hlt
      omega
    calc ((round (q * 10000) : ℤ) : ℚ) ≤ ((10000 : ℤ) : ℚ) := by exact_mod_cast h
    _ = 10000 := by norm_num

theorem max_p_bounds {p : ℚ} (h0 : 0 ≤ p) (h1 : p ≤ 1) :
    1/2 ≤ max p (1 - p) ∧ max p (1 - p) ≤ 1 := by
  constructor
  · rcases le_total p (1/2) with h | h
    · rw [le_max_iff]
      right
      linarith
    · rw [le_max_iff]
      left
      linarith
  · apply max_le
    · linarith
    · linarith

/-! ### Helper lemmas about the risk tiers -/

theorem tierRank_risk_level (p : ℚ) :
    tierRank (risk_level p) =
      if p < 1/10 then 0 else if p < 3/10 then 1 else if p < 7/10 then 2
      else if p < 9/10 then 3 else 4 := by
  unfold risk_level
  split_ifs <;> decide

theorem tierRank_mono {p q : ℚ} (h : p ≤ q) :
    tierRank (risk_level p) ≤ tierRank (risk_level q) := by
  rw [tierRank_risk_level, tierRank_risk_level]
  split_ifs <;> first | omega | (exfalso; linarith)

/-! ### Helper lemmas about batch prediction -/

theorem batch_predict_go_length (m : List ℚ → ℚ) (s : Option Scaler) (t : ℚ) :
    ∀ (txs : List Record) (j : ℕ),
      (batch_predict_go m s t j txs).length = txs.length := by
  intro txs
  induction txs with
  | nil => intro j; rfl
  | cons a l ih =>
    intro j
    simp only [batch_predict_go, List.length_cons, ih]

theorem batch_predict_go_get? (m : List ℚ → ℚ) (s : Option Scaler) (t : ℚ) :
    ∀ (txs : List Record) (j i : ℕ),
      (batch_predict_go m s t j txs).get? i =
        (txs.get? i).map
          (fun tx => ⟨j + i, (predict_with_details m s tx t).1⟩) := by
  intro txs
  induction txs with
  | nil => intro j i; simp [batch_predict_go]
  | cons a l ih =>
    intro j i
    cases i with
    | zero => simp [batch_predict_go]
    | succ n =>
      have hj : j + 1 + n = j + (n + 1) := by omega
      simp only [batch_predict_go, List.get?_cons_succ, ih (j + 1) n, hj]

theorem batch_predict_length (m : List ℚ → ℚ) (s : Option Scaler)
    (txs : List Record) (t : ℚ) :
    (batch_predict m s txs t).length = txs.length :=
  batch_predict_go_length m s t txs 0

theorem batch_predict_get? (m : List ℚ → ℚ) (s : Option Scaler)
    (txs : List Record) (t : ℚ) (i : ℕ) :
    (batch_predict m s txs t).get? i =
      (txs.get? i).map (fun tx => ⟨i, (predict_with_details m s tx t).1⟩) := by
  have h := batch_predict_go_get? m s t txs 0 i
  simpa [batch_predict] using h

/-! ### Helper lemmas about the API endpoints -/

theorem popKey_absent {data : Record} {k : String}
    (h : lookupKey data k = none) :
    popKey data k = (none, data) := by
  unfold popKey
  rw [h]
  have : data.filter (fun kv => kv.1 ≠ k) = data := by
    refine List.filter_eq_self.mpr ?_
    intro kv hkv
    have := lookupKey_eq_none_iff.mp h kv hkv
    simpa using this
  rw [this]

theorem find?_append_first {p : String → Bool} {pre post : List String}
    {f₀ : String} (hpre : ∀ g ∈ pre, p g = false) (hf : p f₀ = true) :
    (pre ++ f₀ :: post).find? p = some f₀ := by
  induction pre with
  | nil =>
    simp only [List.nil_append]
    exact List.find?_cons_of_pos _ hf
  | cons a l ih =>
    have ha := hpre a (List.mem_cons_self a l)
    rw [List.cons_append, List.find?_cons_of_neg _ (by simp [ha])]
    exact ih (fun g hg => hpre g (List.mem_cons_of_mem a hg))

theorem find?_congr {p q : String → Bool} : ∀ {l : List String},
    (∀ a ∈ l, p a = q a) → l.find? p = l.find? q
  | [], _ => rfl
  | a :: l, h => by
    have ha := h a (List.mem_cons_self a l)
    by_cases hp : p a = true
    · rw [List.find?_cons_of_pos _ hp, List.find?_cons_of_pos _ (ha ▸ hp)]
    · have hq : ¬(q a = true) := by rw [← ha]; exact hp
      rw [List.find?_cons_of_neg _ hp, List.find?_cons_of_neg _ hq]
      exact find?_congr (fun b hb => h b (List.mem_cons_of_mem a hb))

/-! ### The claims -/

/-- Claim C1: for every validated TransactionRecord, prepare_features
produces a numeric sequence of fixed length 30 in the exact order: the
temporal field Time first (defaulting to 0 when the key is absent),
then the 28 anonymized features V1..V28 in ascending index order, then
Amount last (each entry then scaled per-dimension by the fitted
scaler). -/
theorem claim_C1 (data : Record) (s : Scaler)
    (hv : (validate_transaction_data data).valid = true)
    (ht : hasKey data "Time" = false ∨ coercesToFloat data "Time" = true) :
    (prepare_features (some s) data).1 =
      .ok (s.transform (claimedFeatureOrder data)) ∧
    (claimedFeatureOrder data).length = 30 ∧
    (s.transform (claimedFeatureOrder data)).length = 30 := by
  refine ⟨?_, rfl, ?_⟩
  · rw [prepare_features_ok s data hv ht, feature_map_eq_claimed data hv]
  · unfold Scaler.transform
    simp [claimedFeatureOrder]

/-- Witness for C1 at a concrete record and scaler. -/
theorem claim_C1_witness :
    (validate_transaction_data simpleRecord).valid = true ∧
    hasKey simpleRecord "Time" = false ∧
    (prepare_features (some unitScaler) simpleRecord).1 =
      .ok (unitScaler.transform (claimedFeatureOrder simpleRecord)) := by
  have hv : (validate_transaction_data simpleRecord).valid = true := by
    with_unfolding_all decide
  have ht : hasKey simpleRecord "Time" = false := by decide
  exact ⟨hv, ht, (claim_C1 simpleRecord unitScaler hv (Or.inl ht)).1⟩

/-- Claim C2: the risk tier follows the half-open, left-inclusive bands
(0.1, 0.3, 0.7, 0.9 go to the higher tier), the tier is non-decreasing
in the probability, the tier reported by predict_with_details does not
depend on the caller-supplied threshold, and on success it is exactly
risk_level of the same probability the score reports. -/
theorem claim_C2 (p q t₁ t₂ : ℚ) (m : List ℚ → ℚ) (s : Option Scaler)
    (data : Record) :
    (p < 1/10 → risk_level p = "Очень низкий") ∧
    (1/10 ≤ p → p < 3/10 → risk_level p = "Низкий") ∧
    (3/10 ≤ p → p < 7/10 → risk_level p = "Средний") ∧
    (7/10 ≤ p → p < 9/10 → risk_level p = "Высокий") ∧
    (9/10 ≤ p → risk_level p = "Очень высокий") ∧
    (p ≤ q → tierRank (risk_level p) ≤ tierRank (risk_level q)) ∧
    ((predict_with_details m s data t₁).1.risk_level =
      (predict_with_details m s data t₂).1.risk_level) ∧
    ((predict_with_details m s data t₁).1.error = none →
      ∃ pr, (predict_with_details m s data t₁).1.fraud_score =
          some (pyRound4 pr) ∧
        (predict_with_details m s data t₁).1.risk_level =
          some (risk_level pr)) := by
  refine ⟨?_, ?_, ?_, ?_, ?_, fun h => tierRank_mono h,
    risk_level_threshold_indep m s data t₁ t₂, ?_⟩
  · intro h
    unfold risk_level
    rw [if_pos h]
  · intro h1 h2
    unfold risk_level
    rw [if_neg (not_lt.mpr h1), if_pos h2]
  · intro h1 h2
    unfold risk_level
    rw [if_neg (not_lt.mpr (by linarith)), if_neg (not_lt.mpr h1), if_pos h2]
  · intro h1 h2
    unfold risk_level
    rw [if_neg (not_lt.mpr (by linarith)), if_neg (not_lt.mpr (by linarith)),
        if_neg (not_lt.mpr h1), if_pos h2]
  · intro h1
    unfold risk_level
    rw [if_neg (not_lt.mpr (by linarith)), if_neg (not_lt.mpr (by linarith)),
        if_neg (not_lt.mpr (by linarith)), if_neg (not_lt.mpr h1)]
  · intro he
    obtain ⟨pr, hpr⟩ := predict_error_none he
    rw [hpr]
    exact ⟨pr, rfl, rfl⟩

/-- Witness for C2 at probability 0. -/
theorem claim_C2_witness :
    (0 : ℚ) < 1/10 ∧ risk_level 0 = "Очень низкий" := by
  refine ⟨by norm_num, ?_⟩
  exact (claim_C2 0 0 0 0 (fun _ => 0) none []).1 (by norm_num)

/-- Claim C5: validation rejects every negative Amount, and accepts
every non-negative Amount (message OK), logging the large-amount
warning exactly when Amount exceeds 100000 — so 0 and 100000 are
accepted without warning and values above 100000 are accepted with
one. -/
theorem claim_C5 (data : Record)
    (hall : ∀ f ∈ required_features, coercesToFloat data f = true) :
    (floatField data "Amount" < 0 →
      (validate_transaction_data data).valid = false ∧
      (validate_transaction_data data).msg = .negativeAmount) ∧
    (0 ≤ floatField data "Amount" →
      (validate_transaction_data data).valid = true ∧
      (validate_transaction_data data).msg = .ok ∧
      ((validate_transaction_data data).warnedLargeAmount = true ↔
        100000 < floatField data "Amount")) := by
  rw [validate_of_allcoerce hall]
  constructor
  · intro h
    rw [if_pos h]
    exact ⟨rfl, rfl⟩
  · intro h
    rw [if_neg (not_lt.mpr h)]
    refine ⟨rfl, rfl, ?_⟩
    simp

/-- Witness for C5 at the soft-ceiling boundary Amount = 100000. -/
theorem claim_C5_witness :
    (∀ f ∈ required_features, coercesToFloat boundaryRecord f = true) ∧
    (0:ℚ) ≤ floatField boundaryRecord "Amount" ∧
    (validate_transaction_data boundaryRecord).valid = true ∧
    (validate_transaction_data boundaryRecord).msg = .ok ∧
    (validate_transaction_data boundaryRecord).warnedLargeAmount = false := by
  have h1 : ∀ f ∈ required_features, coercesToFloat boundaryRecord f = true := by
    with_unfolding_all decide
  have h2 : (0:ℚ) ≤ floatField boundaryRecord "Amount" := by
    with_unfolding_all decide
  have h := (claim_C5 boundaryRecord h1).2 h2
  refine ⟨h1, h2, h.1, h.2.1, ?_⟩
  have hlt : ¬(100000 < floatField boundaryRecord "Amount") := by
    with_unfolding_all decide
  cases hw : (validate_transaction_data boundaryRecord).warnedLargeAmount
  · rfl
  · exact absurd (h.2.2.mp hw) hlt

/-- Claim C6: a record missing required features is rejected with a
message listing every missing feature; a record with all features
present but one not float()-coercible is rejected naming the first
offending feature in the required order; a record with all features
present and coercible gets no missing-field or type message. -/
theorem claim_C6 (data : Record) (pre post : List String) (f₀ : String) :
    (required_features.filter (fun f => !hasKey data f) ≠ [] →
      (validate_transaction_data data).valid = false ∧
      (validate_transaction_data data).msg =
        .missingFeatures (required_features.filter (fun f => !hasKey data f)) ∧
      (∀ f ∈ required_features, hasKey data f = false →
        f ∈ required_features.filter (fun g => !hasKey data g))) ∧
    ((∀ f ∈ required_features, hasKey data f = true) →
      required_features = pre ++ f₀ :: post →
      (∀ g ∈ pre, coercesToFloat data g = true) →
      coercesToFloat data f₀ = false →
      (validate_transaction_data data).valid = false ∧
      (validate_transaction_data data).msg = .notANumber f₀) ∧
    ((∀ f ∈ required_features, coercesToFloat data f = true) →
      (validate_transaction_data data).msg = .ok ∨
      (validate_transaction_data data).msg = .negativeAmount) := by
  refine ⟨?_, ?_, ?_⟩
  · intro hm
    rw [validate_of_missing hm]
    refine ⟨rfl, rfl, ?_⟩
    intro f hf hkey
    rw [List.mem_filter]
    exact ⟨hf, by simp [hkey]⟩
  · intro hk heq hpre hbad
    have hpres : required_features.filter (fun f => !hasKey data f) = [] :=
      List.filter_eq_nil_iff.mpr (fun f hf => by simp [hk f hf])
    have hfind : required_features.find?
        (fun f => !coercesToFloat data f) = some f₀ := by
      rw [heq]
      exact find?_append_first (fun g hg => by simp [hpre g hg]) (by simp [hbad])
    rw [validate_of_badfield hpres hfind]
    exact ⟨rfl, rfl⟩
  · intro hall
    rw [validate_of_allcoerce hall]
    by_cases h : floatField data "Amount" < 0
    · right
      rw [if_pos h]
    · left
      rw [if_neg h]

/-- Witness for C6 at a record missing all 28 anonymized features. -/
theorem claim_C6_witness :
    (required_features.filter
      (fun f => !hasKey [("Amount", PyValue.fnum 5)] f) ≠ []) ∧
    (validate_transaction_data [("Amount", PyValue.fnum 5)]).valid = false ∧
    (validate_transaction_data [("Amount", PyValue.fnum 5)]).msg =
      .missingFeatures (required_features.filter
        (fun f => !hasKey [("Amount", PyValue.fnum 5)] f)) := by
  have hm : required_features.filter
      (fun f => !hasKey [("Amount", PyValue.fnum 5)] f) ≠ [] := by decide
  have h := (claim_C6 [("Amount", PyValue.fnum 5)] [] [] "x").1 hm
  exact ⟨hm, h.1, h.2.1⟩

/-- Reduction of the predict_batch endpoint once the threshold field
coerces to a number. -/
theorem predict_batch_eq (m : List ℚ → ℚ) (s : Option Scaler)
    (txs : List Record) {tv : Option PyValue} {t : ℚ}
    (hthr : pyFloat (tv.getD (PyValue.fnum (1/2))) = some t) :
    predict_batch (some m) s txs tv =
      if 0 ≤ t ∧ t ≤ 1 then
        if 100 < txs.length then .error .batchTooLarge
        else .ok (batch_predict m s txs t)
      else .error .thresholdOutOfRange := by
  unfold predict_batch
  rw [hthr]

/-- Claim C3: a batch of more than 100 transactions is rejected
outright (no result list at all); a batch of at most 100 yields exactly
one result per input, in input order, tagged with its positional index,
where item i is predict_with_details on input i — so a malformed item
yields its tagged error payload without aborting the others. -/
theorem claim_C3 (m : List ℚ → ℚ) (s : Option Scaler) (txs : List Record)
    (tv : Option PyValue) (t : ℚ)
    (hthr : pyFloat (tv.getD (PyValue.fnum (1/2))) = some t)
    (h0 : 0 ≤ t) (h1 : t ≤ 1) :
    (100 < txs.length →
      predict_batch (some m) s txs tv = .error .batchTooLarge) ∧
    (txs.length ≤ 100 →
      predict_batch (some m) s txs tv = .ok (batch_predict m s txs t) ∧
      (batch_predict m s txs t).length = txs.length ∧
      (∀ i, (batch_predict m s txs t).get? i =
        (txs.get? i).map
          (fun tx => ⟨i, (predict_with_details m s tx t).1⟩)) ∧
      (∀ i tx, txs.get? i = some tx →
        (validate_transaction_data tx).valid = false →
        (batch_predict m s txs t).get? i =
          some ⟨i, errorResult
            (.validation (validate_transaction_data tx).msg)⟩)) := by
  constructor
  · intro hlen
    rw [predict_batch_eq m s txs hthr]
    rw [if_pos ⟨h0, h1⟩, if_pos hlen]
  · intro hlen
    refine ⟨?_, batch_predict_length m s txs t,
      fun i => batch_predict_get? m s txs t i, ?_⟩
    · rw [predict_batch_eq m s txs hthr]
      rw [if_pos ⟨h0, h1⟩, if_neg (not_lt.mpr hlen)]
    · intro i tx hi hval
      rw [batch_predict_get? m s txs t i, hi]
      have hinv := @predict_with_details_invalid m s tx t hval
      simp only [Option.map_some', hinv]

/-- Witness for C3 on a two-element batch: one valid record, one empty
(malformed) record, default threshold. -/
theorem claim_C3_witness :
    ([simpleRecord, ([] : Record)].length ≤ 100) ∧
    predict_batch (some (fun _ => 0)) none [simpleRecord, []] none =
      .ok (batch_predict (fun _ => 0) none [simpleRecord, []] (1/2)) := by
  refine ⟨by decide, ?_⟩
  exact ((claim_C3 (fun _ => 0) none [simpleRecord, []] none (1/2) rfl
    (by norm_num) (by norm_num)).2 (by decide)).1

/-- Claim C4: a prediction request — single or batch — whose threshold
is present but not coercible to a number, or coercible but outside the
closed interval from 0 to 1, is rejected with the threshold error for
every model, scaler and payload — before any validation or scoring (no
batch item is touched); an absent threshold defaults both endpoints to
threshold 0.5. -/
theorem claim_C4 (m : List ℚ → ℚ) (s : Option Scaler) (data : Record)
    (txs : List Record) (v : PyValue) (t : ℚ) :
    (lookupKey data "threshold" = some v → pyFloat v = none →
      predict_fraud (some m) s data = .error .thresholdNotANumber) ∧
    (lookupKey data "threshold" = some v → pyFloat v = some t →
      (t < 0 ∨ 1 < t) →
      predict_fraud (some m) s data = .error .thresholdOutOfRange) ∧
    (lookupKey data "threshold" = none → data ≠ [] →
      predict_fraud (some m) s data = api_predict_core m s data (1/2)) ∧
    (pyFloat v = none →
      predict_batch (some m) s txs (some v) = .error .thresholdNotANumber) ∧
    (pyFloat v = some t → (t < 0 ∨ 1 < t) →
      predict_batch (some m) s txs (some v) = .error .thresholdOutOfRange) ∧
    (predict_batch (some m) s txs none =
      if 100 < txs.length then .error .batchTooLarge
      else .ok (batch_predict m s txs (1/2))) := by
  have hne : ∀ w : PyValue, lookupKey data "threshold" = some w →
      data ≠ [] := by
    intro w hw hdata
    rw [hdata] at hw
    cases hw
  refine ⟨?_, ?_, ?_, ?_, ?_, ?_⟩
  · intro hl hp
    have hpop : popKey data "threshold" =
        (some v, data.filter (fun kv => kv.1 ≠ "threshold")) := by
      unfold popKey
      rw [hl]
    simp only [predict_fraud]
    rw [if_neg (hne v hl), hpop]
    simp only [hp]
  · intro hl hp hrange
    have hpop : popKey data "threshold" =
        (some v, data.filter (fun kv => kv.1 ≠ "threshold")) := by
      unfold popKey
      rw [hl]
    have hno : ¬(0 ≤ t ∧ t ≤ 1) := by
      rintro ⟨ha, hb⟩
      rcases hrange with h | h
      · linarith
      · linarith
    simp only [predict_fraud]
    rw [if_neg (hne v hl), hpop]
    simp only [hp]
    rw [if_neg hno]
  · intro hl hdata
    simp only [predict_fraud]
    rw [if_neg hdata, popKey_absent hl]
  · intro hp
    simp only [predict_batch, Option.getD_some, hp]
  · intro hp hrange
    have hno : ¬(0 ≤ t ∧ t ≤ 1) := by
      rintro ⟨ha, hb⟩
      rcases hrange with h | h
      · linarith
      · linarith
    rw [predict_batch_eq m s txs (by simpa using hp), if_neg hno]
  · rw [@predict_batch_eq m s txs none (1/2) rfl,
      if_pos (by norm_num : (0:ℚ) ≤ 1/2 ∧ (1/2:ℚ) ≤ 1)]

/-- Witness for C4 at threshold 2 (out of range), on both the single
endpoint and the batch endpoint. -/
theorem claim_C4_witness :
    lookupKey [("threshold", PyValue.fnum 2)] "threshold" =
      some (PyValue.fnum 2) ∧
    ((2:ℚ) < 0 ∨ 1 < (2:ℚ)) ∧
    predict_fraud (some (fun _ => 0)) none [("threshold", PyValue.fnum 2)] =
      .error .thresholdOutOfRange ∧
    predict_batch (some (fun _ => 0)) none [simpleRecord]
      (some (PyValue.fnum 2)) = .error .thresholdOutOfRange ∧
    predict_batch (some (fun _ => 0)) none [simpleRecord] none =
      .ok (batch_predict (fun _ => 0) none [simpleRecord] (1/2)) := by
  have h := claim_C4 (fun _ => 0) none [("threshold", PyValue.fnum 2)]
    [simpleRecord] (PyValue.fnum 2) 2
  refine ⟨rfl, Or.inr (by norm_num),
    h.2.1 rfl rfl (Or.inr (by norm_num)),
    h.2.2.2.2.1 rfl (Or.inr (by norm_num)), ?_⟩
  rw [h.2.2.2.2.2, if_neg (by decide)]

/-- Claim C7 counterexample: at probability 0.56781 the confidence
predict_with_details reports is the 4-decimal rounding 0.5678 of
max(p, 1-p) = 0.56781, not max(p, 1-p) itself, refuting the claim that
the reported confidence equals max(p, 1-p). -/
theorem claim_C7_counterexample :
    (predict_with_details (fun _ => 56781/100000) (some unitScaler)
        simpleRecord (1/2)).1.confidence ≠
      some (max ((56781:ℚ)/100000) (1 - 56781/100000)) ∧
    (predict_with_details (fun _ => 56781/100000) (some unitScaler)
        simpleRecord (1/2)).1.confidence = some ((5678:ℚ)/10000) := by
  have h := predict_with_details_ok (fun _ => 56781/100000) unitScaler
    simpleRecord (1/2) (by with_unfolding_all decide) (Or.inl (by decide))
  rw [h]
  simp only [successPayload]
  have hmax : max ((56781:ℚ)/100000) (1 - 56781/100000) = 56781/100000 :=
    max_eq_left (by norm_num)
  have hround : pyRound4 ((56781:ℚ)/100000) = 5678/10000 := by
    unfold pyRound4
    norm_num [round_eq]
  rw [hmax, hround]
  constructor
  · intro hc
    have := Option.some.inj hc
    norm_num at this
  · rfl

/-- Claim C7 as amended: on every successful prediction the reported
confidence is the 4-decimal rounding of max(p, 1-p) for the same
probability p the score reports, and for p in the unit interval both
max(p, 1-p) and its rounding lie between 0.5 and 1. -/
theorem claim_C7_amended (m : List ℚ → ℚ) (s : Option Scaler)
    (data : Record) (t : ℚ)
    (he : (predict_with_details m s data t).1.error = none) :
    ∃ p, (predict_with_details m s data t).1.fraud_score =
        some (pyRound4 p) ∧
      (predict_with_details m s data t).1.confidence =
        some (pyRound4 (max p (1 - p))) ∧
      (0 ≤ p → p ≤ 1 →
        1/2 ≤ max p (1 - p) ∧ max p (1 - p) ≤ 1 ∧
        1/2 ≤ pyRound4 (max p (1 - p)) ∧ pyRound4 (max p (1 - p)) ≤ 1) := by
  obtain ⟨p, hp⟩ := predict_error_none he
  refine ⟨p, by rw [hp]; rfl, by rw [hp]; rfl, ?_⟩
  intro h0 h1
  obtain ⟨hm1, hm2⟩ := max_p_bounds h0 h1
  obtain ⟨hr1, hr2⟩ := pyRound4_bounds hm1 hm2
  exact ⟨hm1, hm2, hr1, hr2⟩

/-- Witness for the amended C7 at a concrete successful prediction. -/
theorem claim_C7_amended_witness :
    (predict_with_details (fun _ => 1/2) (some unitScaler)
      simpleRecord (1/2)).1.error = none ∧
    ∃ p, (predict_with_details (fun _ => 1/2) (some unitScaler)
        simpleRecord (1/2)).1.fraud_score = some (pyRound4 p) ∧
      (predict_with_details (fun _ => 1/2) (some unitScaler)
        simpleRecord (1/2)).1.confidence =
          some (pyRound4 (max p (1 - p))) ∧
      (0 ≤ p → p ≤ 1 →
        1/2 ≤ max p (1 - p) ∧ max p (1 - p) ≤ 1 ∧
        1/2 ≤ pyRound4 (max p (1 - p)) ∧ pyRound4 (max p (1 - p)) ≤ 1) := by
  have he : (predict_with_details (fun _ => 1/2) (some unitScaler)
      simpleRecord (1/2)).1.error = none := by
    rw [predict_with_details_ok (fun _ => 1/2) unitScaler simpleRecord (1/2)
      (by with_unfolding_all decide) (Or.inl (by decide))]
    rfl
  exact ⟨he, claim_C7_amended _ _ _ _ he⟩

/-- Claim C8: the fraud decision is probability >= threshold, both in
predict_fraud_class and in the is_fraud field of predict_with_details;
in particular a probability exactly equal to the threshold classifies
as fraud. -/
theorem claim_C8 (m : List ℚ → ℚ) (s : Option Scaler) (data : Record)
    (t p : ℚ) :
    ((predict_fraud_probability m s data).1 = .ok p →
      (predict_fraud_class m s data t).1 = .ok (decide (p ≥ t)) ∧
      (p ≥ t → (predict_fraud_class m s data t).1 = .ok true) ∧
      (p < t → (predict_fraud_class m s data t).1 = .ok false) ∧
      (predict_fraud_class m s data p).1 = .ok true) ∧
    ((predict_with_details m s data t).1.error = none →
      ∃ pr, (predict_with_details m s data t).1.fraud_score =
          some (pyRound4 pr) ∧
        (predict_with_details m s data t).1.is_fraud =
          some (decide (pr ≥ t))) := by
  constructor
  · intro hp
    have hcls : ∀ t', (predict_fraud_class m s data t').1 =
        .ok (decide (p ≥ t')) := by
      intro t'
      unfold predict_fraud_class
      rcases hq : predict_fraud_probability m s data with ⟨res, d2⟩
      rw [hq] at hp
      cases res with
      | error e => cases hp
      | ok r =>
        have : r = p := by
          simpa using hp
        rw [this]
    refine ⟨hcls t, fun hge => ?_, fun hlt => ?_, ?_⟩
    · rw [hcls t]
      simp [hge]
    · rw [hcls t]
      simp [not_le.mpr hlt]
    · rw [hcls p]
      simp
  · intro he
    obtain ⟨pr, hpr⟩ := predict_error_none he
    rw [hpr]
    exact ⟨pr, rfl, rfl⟩

/-- Witness for C8 at probability exactly equal to the threshold. -/
theorem claim_C8_witness :
    (predict_fraud_probability (fun _ => 1/2) (some unitScaler)
      simpleRecord).1 = .ok (1/2) ∧
    (predict_fraud_class (fun _ => 1/2) (some unitScaler)
      simpleRecord (1/2)).1 = .ok true := by
  have hp : (predict_fraud_probability (fun _ => 1/2) (some unitScaler)
      simpleRecord).1 = .ok (1/2) := by
    unfold predict_fraud_probability
    rw [prepare_features_ok unitScaler simpleRecord
      (by with_unfolding_all decide) (Or.inl (by decide))]
  exact ⟨hp, ((claim_C8 (fun _ => 1/2) (some unitScaler) simpleRecord
    (1/2) (1/2)).1 hp).2.2.2⟩

/-- Claim C9 counterexample: prediction on a valid record without the
optional Time key mutates the caller's mapping — the Time key is
inserted — refuting the claim that the input mapping is left
unchanged. -/
theorem claim_C9_counterexample :
    (predict_with_details (fun _ => 0) (some unitScaler)
        simpleRecord (1/2)).2 ≠ simpleRecord ∧
    hasKey ((predict_with_details (fun _ => 0) (some unitScaler)
        simpleRecord (1/2)).2) "Time" = true ∧
    hasKey simpleRecord "Time" = false := by
  refine ⟨?_, ?_, by decide⟩
  · with_unfolding_all decide
  · with_unfolding_all decide

/-- Claim C9 as amended: prediction leaves the caller's mapping
unchanged except in exactly one case — when validation passes and the
Time key is absent, the key Time with value 0 is appended; no other
key is ever added, removed or modified, and the model and scaler
parameters are read-only. -/
theorem claim_C9_amended (m : List ℚ → ℚ) (s : Option Scaler)
    (data : Record) (t : ℚ) :
    (predict_with_details m s data t).2 =
      if (validate_transaction_data data).valid = true ∧
          hasKey data "Time" = false
      then data ++ [("Time", PyValue.fnum 0)] else data := by
  rw [predict_with_details_snd]
  by_cases hv : (validate_transaction_data data).valid = false
  · rw [if_pos hv, if_neg]
    rintro ⟨h1, _⟩
    rw [h1] at hv
    cases hv
  · have hv' : (validate_transaction_data data).valid = true := by
      cases h : (validate_transaction_data data).valid
      · exact absurd h hv
      · rfl
    rw [if_neg hv, prepare_features_snd, if_neg hv]
    unfold timeDefaulted
    by_cases hT : hasKey data "Time" = true
    · rw [if_pos hT, if_neg]
      rintro ⟨_, h2⟩
      rw [hT] at h2
      cases h2
    · have hT' : hasKey data "Time" = false := by
        cases h : hasKey data "Time"
        · rfl
        · exact absurd h hT
      rw [if_neg (by simp [hT']), if_pos ⟨hv', hT'⟩]

/-- Claim C10 counterexample: a record holding all 29 required fields
with numeric values but a negative Amount is rejected by validation,
refuting the claim that every record with all 29 numeric fields
validates. -/
theorem claim_C10_counterexample :
    (∀ f ∈ required_features, coercesToFloat negAmountRecord f = true) ∧
    hasKey negAmountRecord "Time" = false ∧
    (validate_transaction_data negAmountRecord).valid = false := by
  refine ⟨by decide, by decide, ?_⟩
  with_unfolding_all decide

/-- Claim C10 as amended: validation never inspects Time — a record
with all 29 required fields numeric and non-negative Amount validates,
and appending any Time value leaves the validation outcome unchanged;
when such a record's Time is present but not float()-coercible,
predict_with_details returns the exception payload with fraud_score,
is_fraud and confidence all none, produced by the feature-assembly
step (validation itself passes). -/
theorem claim_C10 (data : Record) (v : PyValue) (m : List ℚ → ℚ)
    (s : Option Scaler) (t : ℚ) (str : String) :
    ((∀ f ∈ required_features, coercesToFloat data f = true) →
      0 ≤ floatField data "Amount" →
      (validate_transaction_data data).valid = true) ∧
    (hasKey data "Time" = false →
      validate_transaction_data (data ++ [("Time", v)]) =
        validate_transaction_data data) ∧
    ((∀ f ∈ required_features, coercesToFloat data f = true) →
      0 ≤ floatField data "Amount" →
      lookupKey data "Time" = some (PyValue.nonNum str) →
      (predict_with_details m s data t).1 =
        errorResult (.badField "Time") ∧
      (predict_with_details m s data t).1.fraud_score = none ∧
      (predict_with_details m s data t).1.is_fraud = none ∧
      (predict_with_details m s data t).1.confidence = none) := by
  refine ⟨fun hall ha => valid_of_coerce_nonneg hall ha, ?_, ?_⟩
  · intro hT
    have htne : ∀ f ∈ required_features,
        lookupKey (data ++ [("Time", v)]) f = lookupKey data f := by
      intro f hf
      cases hl : lookupKey data f with
      | some w => exact lookupKey_append_some _ hl
      | none =>
        rw [lookupKey_append_none _ hl]
        have hne : ¬("Time" = f) := by
          have hx : ∀ g ∈ required_features, ¬("Time" = g) := by decide
          exact hx f hf
        simp [lookupKey, hne]
    have hhk : ∀ f ∈ required_features,
        hasKey (data ++ [("Time", v)]) f = hasKey data f := by
      intro f hf
      unfold hasKey
      rw [htne f hf]
    have hcf : ∀ f ∈ required_features,
        coercesToFloat (data ++ [("Time", v)]) f = coercesToFloat data f := by
      intro f hf
      unfold coercesToFloat
      rw [htne f hf]
    have hfa : floatField (data ++ [("Time", v)]) "Amount" =
        floatField data "Amount" := by
      unfold floatField
      rw [htne "Amount" (by decide)]
    simp only [validate_transaction_data]
    rw [List.filter_congr (fun a ha => by rw [hhk a ha]),
      find?_congr (fun a ha => by rw [hcf a ha]), hfa]
  · intro hall ha hTlookup
    have hv : (validate_transaction_data data).valid = true :=
      valid_of_coerce_nonneg hall ha
    have hT : hasKey data "Time" = true := by
      unfold hasKey
      rw [hTlookup]
      rfl
    have htd : timeDefaulted data = data := by
      unfold timeDefaulted
      rw [if_pos hT]
    have hfl : floatsInOrder (timeDefaulted data) feature_names =
        .error (.badField "Time") := by
      rw [htd]
      show floatsInOrder data ("Time" :: required_features) = _
      unfold floatsInOrder
      rw [hTlookup]
      rfl
    have hpf : prepare_features s data = (.error (.badField "Time"), data) := by
      unfold prepare_features
      simp only [hv, Bool.true_eq_false, if_false]
      rw [hfl, htd]
    have hpp : predict_fraud_probability m s data =
        (.error (.badField "Time"), data) := by
      unfold predict_fraud_probability
      rw [hpf]
    rw [predict_with_details_valid_eq hv, hpp]
    exact ⟨rfl, rfl, rfl, rfl⟩

/-- Witness for the amended C10 at a record whose Time is a
non-numeric string. -/
theorem claim_C10_witness :
    (∀ f ∈ required_features, coercesToFloat badTimeRecord f = true) ∧
    (0:ℚ) ≤ floatField badTimeRecord "Amount" ∧
    lookupKey badTimeRecord "Time" = some (PyValue.nonNum "oops") ∧
    (predict_with_details (fun _ => 0) (some unitScaler)
        badTimeRecord (1/2)).1 = errorResult (.badField "Time") := by
  have h1 : ∀ f ∈ required_features, coercesToFloat badTimeRecord f = true := by
    decide
  have h2 : (0:ℚ) ≤ floatField badTimeRecord "Amount" := by
    with_unfolding_all decide
  have h3 : lookupKey badTimeRecord "Time" = some (PyValue.nonNum "oops") := rfl
  exact ⟨h1, h2, h3, ((claim_C10 badTimeRecord (PyValue.fnum 0) (fun _ => 0)
    (some unitScaler) (1/2) "oops").2.2 h1 h2 h3).1⟩

end FraudDetection
